import Mathlib

/-!
Verification development for the todo-application backend's AI pipeline:
the LLM response validators (`validateLLMResponse`, analysis coercion),
the goal validator (`validateGoal`), the two service pipelines
(`generateTaskBreakdown`, `analyzeTodosWithAI`), the HTTP error
classification in the controllers, and the fixed-window rate limiter
(`rateLimiterStep`, shared `rateLimitStore`).

Conventions of the shallow embedding:
- JavaScript values parsed from JSON are modelled by the inductive `Json`;
  JS truthiness by `truthy`; property access by `getField` (returns `none`
  for `undefined`).
- The provider HTTP interaction is an oracle argument (`ProviderOutcome`),
  and the host runtime's `JSON.parse` is an oracle function
  `String → Except String Json`; everything the repository's own code does
  with those outcomes is embedded faithfully.
- `networkCalled` records whether the `fetch` call was reached.
- String trimming uses Lean's `String.trim` for JS `String.prototype.trim`,
  and `String.length`/`String.take` count characters where JS counts
  UTF-16 units; the difference is immaterial to the properties proved.
-/

/-- A JSON value as materialized by `JSON.parse`. -/
inductive Json where
  | null : Json
  | bool : Bool → Json
  | num : Int → Json
  | str : String → Json
  | arr : List Json → Json
  | obj : List (String × Json) → Json

/-- First-match field lookup in an object's field list. -/
def lookupField : List (String × Json) → String → Option Json
  | [], _ => none
  | (k', v) :: t, k => if k' = k then some v else lookupField t k

/-- JS property access `x[k]`: `none` models `undefined`. -/
def getField : Json → String → Option Json
  | Json.obj fields, k => lookupField fields k
  | _, _ => none

/-- JS truthiness of a JSON value. -/
def truthy : Json → Bool
  | Json.null => false
  | Json.bool b => b
  | Json.num n => n != 0
  | Json.str s => !s.isEmpty
  | Json.arr _ => true
  | Json.obj _ => true

/-- JS `x && typeof x === 'object'`: a truthy value of typeof `object`
(objects and arrays; `null` is falsy). -/
def isObjLike : Json → Bool
  | Json.obj _ => true
  | Json.arr _ => true
  | _ => false

/-- The `estimatedPriority` enum of `SuggestedTask` (`'low'|'medium'|'high'`). -/
inductive Priority where
  | low : Priority
  | medium : Priority
  | high : Priority
deriving DecidableEq, Repr

/-- `SuggestedTask` from `types` (backend shared types). -/
structure SuggestedTask where
  title : String
  description : Option String := none
  estimatedPriority : Option Priority := none
deriving DecidableEq, Repr

/-- The validated payload produced by `validateLLMResponse`. -/
structure ValidatedBreakdown where
  suggestedTasks : List SuggestedTask
  reasoning : Option String := none
deriving DecidableEq, Repr

/-- The whitespace class trimmed by JS `String.prototype.trim`
(restricted to the ASCII whitespace actually relevant here). -/
def jsWhitespace (c : Char) : Bool :=
  c = ' ' || c = '\t' || c = '\n' || c = '\r' || c = '\x0b' || c = '\x0c'

/-- JS `s.trim()`: drop leading and trailing whitespace. Defined over the
character list so that it evaluates by kernel reduction. -/
def jsTrim (s : String) : String :=
  (((s.data.dropWhile jsWhitespace).reverse.dropWhile jsWhitespace).reverse).asString

/-- JS `s.slice(0, n)`, counting characters. -/
def jsSlice (s : String) (n : Nat) : String :=
  (s.data.take n).asString

/-- The `description` clause of the loop body in `validateLLMResponse`:
kept only when truthy (non-empty) and a string, and then trimmed. -/
def descriptionOf (t : Json) : Option String :=
  match getField t "description" with
  | some (Json.str d) => if d.isEmpty then none else some (jsTrim d)
  | _ => none

/-- The `estimatedPriority` clause of the loop body in
`validateLLMResponse`: kept only when the value is exactly the string
`low`, `medium` or `high`. -/
def priorityOf (t : Json) : Option Priority :=
  match getField t "estimatedPriority" with
  | some (Json.str p) =>
    if p = "low" then some Priority.low
    else if p = "medium" then some Priority.medium
    else if p = "high" then some Priority.high
    else none
  | _ => none

/-- The per-element body of the `for (const task of data.suggestedTasks)` loop
in `validateLLMResponse` (`taskBreakdownService.ts`): `none` models `continue`
(the entry is dropped), `some` the pushed sanitized task. -/
def validateTask (t : Json) : Option SuggestedTask :=
  if isObjLike t = false then none
  else
    match getField t "title" with
    | some (Json.str s) =>
      if (jsTrim s).isEmpty then none
      else
        some
          { title := jsTrim s
            description := descriptionOf t
            estimatedPriority := priorityOf t }
    | _ => none

/-- The `reasoning` pass-through of `validateLLMResponse`: kept only if a
string. -/
def reasoningOf (j : Json) : Option String :=
  match getField j "reasoning" with
  | some (Json.str r) => some r
  | _ => none

/-- `validateLLMResponse` from `taskBreakdownService.ts`: `none` models
`{ valid: false }`, `some d` models `{ valid: true, data: d }`. -/
def validateLLMResponse (j : Json) : Option ValidatedBreakdown :=
  if isObjLike j = false then none
  else
    match getField j "suggestedTasks" with
    | some (Json.arr ts) =>
      if (ts.filterMap validateTask).isEmpty then none
      else
        some { suggestedTasks := ts.filterMap validateTask, reasoning := reasoningOf j }
    | _ => none

/-- Spec-side retention predicate, following the spec's words: an entry is
retained only if it has a non-empty string `title` after trimming. Used to
compare the source-embedded `validateTask` against the specification. -/
def specRetainsEntry (t : Json) : Bool :=
  match getField t "title" with
  | some (Json.str s) => !(jsTrim s).isEmpty
  | _ => false

/-- Helper for the greedy regex span: returns the prefix of the character
list up to and including the last `}` in it, if any `}` occurs. -/
def takeToLastClose : List Char → Option (List Char)
  | [] => none
  | c :: rest =>
    match takeToLastClose rest with
    | some r => some (c :: r)
    | none => if c = '}' then some [c] else none

/-- Character-level body of `extractJsonSpan`. -/
def extractSpanAux : List Char → Option (List Char)
  | [] => none
  | c :: rest =>
    if c = '{' then
      match takeToLastClose rest with
      | some r => some (c :: r)
      | none => extractSpanAux rest
    else extractSpanAux rest

/-- The `aiResponse.match(/\x7b[\s\S]*\x7d/)` span scan used by both
services: the substring from the first `{` that has a later `}` up to the
last `}` of the whole string, or `none` when no such span exists. -/
def extractJsonSpan (s : String) : Option String :=
  (extractSpanAux s.data).map List.asString

/-- Bool substring test over char lists (JS `String.prototype.includes`). -/
def containsCharsAux (needle : List Char) : List Char → Bool
  | [] => needle.isEmpty
  | c :: rest => needle.isPrefixOf (c :: rest) || containsCharsAux needle rest

/-- JS `hay.includes(needle)`. -/
def containsStr (hay needle : String) : Bool :=
  containsCharsAux needle.data hay.data

/-- Outcome of the single provider `fetch` call, as seen by the service
code after the provider envelope is unwrapped: a timeout (`AbortError`),
a non-ok HTTP status, a rejected network promise, or a success body whose
`choices` each carry an optional `message.content`. -/
inductive ProviderOutcome where
  | timeout : ProviderOutcome
  | httpError : Nat → String → ProviderOutcome
  | networkError : String → ProviderOutcome
  | success : List (Option String) → ProviderOutcome

/-- The `catch` block of `generateTaskBreakdown`: errors whose message
contains one of the listed substrings are rethrown verbatim, everything
else becomes the generic failure message. -/
def breakdownCatch (msg : String) : String :=
  if containsStr msg "API error" then msg
  else if
      containsStr msg "Goal" || containsStr msg "format" ||
      containsStr msg "valid" || containsStr msg "configured" ||
      containsStr msg "No response" then
    msg
  else "Failed to generate task breakdown. Please try again later."

/-- `validateGoal` from `taskBreakdownService.ts`: `none` models
`{ valid: true }`, `some err` the failure with its user-facing message. -/
def validateGoal (goal : String) : Option String :=
  if jsTrim goal = "" then some "Goal cannot be empty"
  else if (jsTrim goal).length < 5 then
    some "Please provide a more specific goal (at least 5 characters)"
  else if (jsTrim goal).length > 500 then
    some "Goal is too long (maximum 500 characters)"
  else none

/-- `sanitizeInput`: trim, then truncate to 500 characters. -/
def sanitizeInput (input : String) : String :=
  jsSlice (jsTrim input) 500

/-- `TaskBreakdownRequest` from the shared types. -/
structure TaskBreakdownRequest where
  goal : String
  context : Option String := none
  maxTasks : Option Nat := none

/-- `TaskBreakdownResponse` from the shared types. -/
structure TaskBreakdownResponse where
  goal : String
  suggestedTasks : List SuggestedTask
  reasoning : Option String := none
deriving DecidableEq, Repr

/-- Configuration read by `generateTaskBreakdown` at call time:
`OPENROUTER_API_KEY` and the `TASK_BREAKDOWN_MAX_TASKS` ceiling. -/
structure BreakdownEnv where
  apiKey : Option String
  maxTasksCeil : Nat := 8

/-- `Math.min(request.maxTasks || TASK_BREAKDOWN_MAX_TASKS,
TASK_BREAKDOWN_MAX_TASKS)` (JS `||`: `0` falls back to the ceiling). -/
def effectiveMaxTasks (req : TaskBreakdownRequest) (env : BreakdownEnv) : Nat :=
  min
    (match req.maxTasks with
     | some m => if m = 0 then env.maxTasksCeil else m
     | none => env.maxTasksCeil)
    env.maxTasksCeil

/-- The system prompt of the breakdown feature; `maxTasks` appears only in
the "Generate 4-N" guideline. -/
def breakdownSystemPrompt (maxTasks : Nat) : String :=
  "You are a task decomposition assistant. Break down high-level goals into specific, actionable sub-tasks.\n\nGuidelines:\n1. Generate 4-" ++
  toString maxTasks ++
  " concrete, actionable tasks\n2. Each task should be clear and specific\n3. Order tasks logically (dependencies first)\n4. Keep task titles concise (5-10 words)\n5. Add brief descriptions for clarity\n6. Suggest priority levels where applicable\n\nReturn ONLY valid JSON, no additional text."

/-- The user prompt of the breakdown feature. -/
def breakdownUserPrompt (sanitizedGoal : String) (sanitizedContext : Option String) : String :=
  "Break down this goal into actionable sub-tasks:\n\nGoal: \"" ++ sanitizedGoal ++ "\"\n" ++
  (match sanitizedContext with
   | some c => "Additional context: \"" ++ c ++ "\""
   | none => "") ++
  "\n\nReturn JSON in this exact format:\n\x7b\n  \"suggestedTasks\": [\n    \x7b\n      \"title\": \"Task title here\",\n      \"description\": \"Brief explanation\",\n      \"estimatedPriority\": \"high|medium|low\"\n    \x7d\n  ],\n  \"reasoning\": \"Brief explanation of breakdown approach\"\n\x7d"

/-- The `if (validationResult.data.reasoning)` copy in
`generateTaskBreakdown`: the reasoning field is attached to the response
only when truthy (a non-empty string). -/
def finalReasoning : Option String → Option String
  | some r => if r.isEmpty then none else some r
  | none => none

/-- The body of the `try` block of `generateTaskBreakdown` after the
`fetch`, with every thrown error routed through `breakdownCatch`
(the `AbortError` timeout branch is matched on the outcome, mirroring the
`error.name` check). `parse` is the host runtime's `JSON.parse`. -/
def runBreakdownCall (sanitizedGoal : String) (provider : ProviderOutcome)
    (parse : String → Except String Json) : Except String TaskBreakdownResponse :=
  match provider with
  | ProviderOutcome.timeout =>
    Except.error "Task breakdown request timed out. Please try again with a simpler goal."
  | ProviderOutcome.httpError status statusText =>
    Except.error (breakdownCatch ("OpenRouter API error: " ++ toString status ++ " " ++ statusText))
  | ProviderOutcome.networkError m => Except.error (breakdownCatch m)
  | ProviderOutcome.success choices =>
    match choices.head? with
    | none => Except.error (breakdownCatch "No response from AI model")
    | some none => Except.error (breakdownCatch "No response from AI model")
    | some (some c) =>
      if c = "" then Except.error (breakdownCatch "No response from AI model")
      else
        match extractJsonSpan c with
        | none => Except.error (breakdownCatch "AI response was not in expected JSON format")
        | some span =>
          match parse span with
          | Except.error m => Except.error (breakdownCatch m)
          | Except.ok parsed =>
            match validateLLMResponse parsed with
            | none => Except.error (breakdownCatch "AI response did not contain valid suggested tasks")
            | some d =>
              Except.ok
                { goal := sanitizedGoal
                  suggestedTasks := d.suggestedTasks
                  reasoning := finalReasoning d.reasoning }

/-- One run of `generateTaskBreakdown`: its result, whether the `fetch`
was reached, and the prompts that would be sent (the only place
`maxTasks` is used). -/
structure BreakdownRun where
  result : Except String TaskBreakdownResponse
  networkCalled : Bool
  sentPrompts : Option (String × String) := none

/-- `generateTaskBreakdown` from `taskBreakdownService.ts`: configuration
check, goal validation, sanitization, prompt construction, then the
provider call. -/
def generateTaskBreakdown (env : BreakdownEnv) (req : TaskBreakdownRequest)
    (provider : ProviderOutcome) (parse : String → Except String Json) : BreakdownRun :=
  match env.apiKey with
  | none =>
    { result := Except.error "OPENROUTER_API_KEY is not configured", networkCalled := false }
  | some _ =>
    match validateGoal req.goal with
    | some err => { result := Except.error err, networkCalled := false }
    | none =>
      let sanitizedGoal := sanitizeInput req.goal
      let sanitizedContext := req.context.map sanitizeInput
      let maxTasks := effectiveMaxTasks req env
      { result := runBreakdownCall sanitizedGoal provider parse
        networkCalled := true
        sentPrompts :=
          some (breakdownSystemPrompt maxTasks, breakdownUserPrompt sanitizedGoal sanitizedContext) }

/-- `Todo` from the shared types. -/
structure Todo where
  id : String
  title : String
  description : Option String := none
  completed : Bool
  createdAt : String
  updatedAt : String

/-- Configuration read by `aiService.ts` (`OPENROUTER_API_KEY`). -/
structure AIEnv where
  apiKey : Option String

/-- The value built by `analyzeTodosWithAI` from the parsed provider JSON.
`summary` is kept as a `Json` value because the code's
`parsedResponse.summary || "Analysis completed"` passes any truthy value
through unchanged, whatever its type. -/
structure AnalysisResultJ where
  summary : Json
  insights : List Json
  prioritySuggestions : Option (List Json)

/-- The canned empty-todo-list result of `analyzeTodosWithAI`. -/
def cannedEmptyAnalysis : AnalysisResultJ :=
  { summary := Json.str "You have no todos yet. Start by adding your first task!"
    insights :=
      [Json.str "Your todo list is empty",
       Json.str "Consider adding tasks to track your work"]
    prioritySuggestions := some [] }

/-- The `catch` block of `analyzeTodosWithAI`: only messages containing
"API error" are rethrown verbatim; everything else becomes the generic
analysis failure message. -/
def analysisCatch (msg : String) : String :=
  if containsStr msg "API error" then msg
  else "Failed to analyze todos with AI. Please try again later."

/-- The coercion `analyzeTodosWithAI` applies to the parsed payload:
`summary` is `parsedResponse.summary || "Analysis completed"` (the falsy
check passes any truthy value through, whatever its type), `insights` is
forced to an array via `Array.isArray`, `prioritySuggestions` to an array
or `undefined`. -/
def coerceAnalysis (parsed : Json) : AnalysisResultJ :=
  { summary :=
      match getField parsed "summary" with
      | some v => if truthy v then v else Json.str "Analysis completed"
      | none => Json.str "Analysis completed"
    insights :=
      match getField parsed "insights" with
      | some (Json.arr xs) => xs
      | _ => []
    prioritySuggestions :=
      match getField parsed "prioritySuggestions" with
      | some (Json.arr xs) => some xs
      | _ => none }

/-- The body of the `try` block of `analyzeTodosWithAI` after the `fetch`,
with thrown errors routed through `analysisCatch` (the `AbortError`
timeout branch matched on the outcome). On a parsed payload the result is
the coerced record. -/
def runAnalysisCall (provider : ProviderOutcome)
    (parse : String → Except String Json) : Except String AnalysisResultJ :=
  match provider with
  | ProviderOutcome.timeout => Except.error "AI analysis request timed out. Please try again."
  | ProviderOutcome.httpError status statusText =>
    Except.error (analysisCatch ("OpenRouter API error: " ++ toString status ++ " " ++ statusText))
  | ProviderOutcome.networkError m => Except.error (analysisCatch m)
  | ProviderOutcome.success choices =>
    match choices.head? with
    | none => Except.error (analysisCatch "No response from AI model")
    | some none => Except.error (analysisCatch "No response from AI model")
    | some (some c) =>
      if c = "" then Except.error (analysisCatch "No response from AI model")
      else
        match extractJsonSpan c with
        | none => Except.error (analysisCatch "AI response was not in expected JSON format")
        | some span =>
          match parse span with
          | Except.error m => Except.error (analysisCatch m)
          | Except.ok parsed => Except.ok (coerceAnalysis parsed)

/-- One run of `analyzeTodosWithAI`: its result and whether the `fetch`
was reached. -/
structure AnalysisRun where
  result : Except String AnalysisResultJ
  networkCalled : Bool

/-- `analyzeTodosWithAI` from `aiService.ts`: configuration check, the
empty-todo-list short circuit, then the provider call. -/
def analyzeTodosWithAI (env : AIEnv) (todos : List Todo)
    (provider : ProviderOutcome) (parse : String → Except String Json) : AnalysisRun :=
  match env.apiKey with
  | none => { result := Except.error "OPENROUTER_API_KEY is not configured", networkCalled := false }
  | some _ =>
    if todos.isEmpty then
      { result := Except.ok cannedEmptyAnalysis, networkCalled := false }
    else
      { result := runAnalysisCall provider parse, networkCalled := true }

/-- Modelled from the spec: the generic top-level Express error handler
(`src/backend/src/middleware/errorHandler.ts` is imported by `app.ts` but
its source is not present in the repository snapshot). Per the spec's
error taxonomy, "anything unclassified → propagated to the generic
top-level error handler (HTTP 500, no details leaked)". -/
def errorHandlerResponse (_msg : String) : Nat × String :=
  (500, "Internal server error")

/-- The `catch` branch cascade of the `breakdownTask` controller, mapping
a thrown error message to the HTTP status and error body; unmatched
errors go to `next(error)`, i.e. the generic handler. -/
def breakdownControllerError (msg : String) : Nat × String :=
  if containsStr msg "not configured" then
    (503, "AI service is not configured. Please contact the administrator.")
  else if containsStr msg "timed out" then
    (504, "Task breakdown timed out. Please try again with a simpler goal.")
  else if containsStr msg "Goal" || containsStr msg "specific" then (400, msg)
  else if containsStr msg "format" then
    (500, "AI response was not in expected format. Please try again.")
  else errorHandlerResponse msg

/-- The `catch` branch cascade of the `analyzeTodos` controller; it
classifies only configuration and timeout errors, everything else goes to
`next(error)`, i.e. the generic handler. -/
def analysisControllerError (msg : String) : Nat × String :=
  if containsStr msg "not configured" then
    (503, "AI service is not configured. Please contact the administrator.")
  else if containsStr msg "timed out" then
    (504, "AI analysis timed out. Please try again.")
  else errorHandlerResponse msg

/-- End-to-end breakdown endpoint behavior for a well-typed request body:
the service result, with service errors classified by the controller into
an HTTP status and error message. -/
def breakdownHttp (env : BreakdownEnv) (req : TaskBreakdownRequest)
    (provider : ProviderOutcome) (parse : String → Except String Json) :
    Except (Nat × String) TaskBreakdownResponse :=
  match (generateTaskBreakdown env req provider parse).result with
  | Except.ok r => Except.ok r
  | Except.error m => Except.error (breakdownControllerError m)

/-- End-to-end analysis endpoint behavior for a well-typed todos array. -/
def analysisHttp (env : AIEnv) (todos : List Todo)
    (provider : ProviderOutcome) (parse : String → Except String Json) :
    Except (Nat × String) AnalysisResultJ :=
  match (analyzeTodosWithAI env todos provider parse).result with
  | Except.ok r => Except.ok r
  | Except.error m => Except.error (analysisControllerError m)

/-- `RateLimitEntry` from `rateLimiter.ts`. -/
structure RateLimitEntry where
  count : Nat
  resetTime : Nat
deriving DecidableEq, Repr

/-- The in-memory `rateLimitStore` map, keyed by client identity (IP). -/
abbrev RateLimitStore := List (String × RateLimitEntry)

/-- `rateLimitStore.get`. -/
def storeGet : RateLimitStore → String → Option RateLimitEntry
  | [], _ => none
  | (k', e) :: t, k => if k' = k then some e else storeGet t k

/-- `rateLimitStore.set` (replace or insert). -/
def storeSet : RateLimitStore → String → RateLimitEntry → RateLimitStore
  | [], k, e => [(k, e)]
  | (k', e') :: t, k, e => if k' = k then (k, e) :: t else (k', e') :: storeSet t k e

/-- `RateLimitOptions` from `rateLimiter.ts`. -/
structure RateLimitOptions where
  windowMs : Nat
  maxRequests : Nat

/-- The middleware's decision: pass the request on (`next()`), or answer
429 with a `Retry-After` value. -/
inductive LimitDecision where
  | allowed : LimitDecision
  | rejected : Nat → Nat → LimitDecision
deriving DecidableEq, Repr

/-- The store after a middleware invocation, its decision, and whether the
downstream handler (`next`) was invoked. -/
structure StepResult where
  store : RateLimitStore
  decision : LimitDecision
  nextInvoked : Bool
deriving DecidableEq, Repr

/-- The entry as it stands in the store after one middleware invocation:
a fresh `\x7bcount: 0, resetTime: now + windowMs\x7d` when absent or
expired, then `entry.count++` (the mutation is visible through the map,
the entry object being shared). -/
def stepEntry (opts : RateLimitOptions) (store : RateLimitStore)
    (clientId : String) (now : Nat) : RateLimitEntry :=
  match storeGet store clientId with
  | some e =>
    if now > e.resetTime then { count := 1, resetTime := now + opts.windowMs }
    else { count := e.count + 1, resetTime := e.resetTime }
  | none => { count := 1, resetTime := now + opts.windowMs }

/-- One invocation of the middleware returned by `createRateLimiter`:
look up / refresh the entry, increment its count, then either reject with
429 and `Retry-After = ceil((resetTime - now) / 1000)` or call `next()`. -/
def rateLimiterStep (opts : RateLimitOptions) (store : RateLimitStore)
    (clientId : String) (now : Nat) : StepResult :=
  if (stepEntry opts store clientId now).count > opts.maxRequests then
    { store := storeSet store clientId (stepEntry opts store clientId now)
      decision :=
        LimitDecision.rejected 429
          (((stepEntry opts store clientId now).resetTime - now + 999) / 1000)
      nextInvoked := false }
  else
    { store := storeSet store clientId (stepEntry opts store clientId now)
      decision := LimitDecision.allowed
      nextInvoked := true }

/-- `taskBreakdownRateLimiter`: 10 requests per 60 s window. Both
middleware instances close over the one module-level `rateLimitStore`,
modelled by both acting on the same store argument. -/
def taskBreakdownRateLimiter : RateLimitStore → String → Nat → StepResult :=
  rateLimiterStep { windowMs := 60 * 1000, maxRequests := 10 }

/-- `aiAnalysisRateLimiter`: 20 requests per 60 s window, acting on the
same shared `rateLimitStore`. -/
def aiAnalysisRateLimiter : RateLimitStore → String → Nat → StepResult :=
  rateLimiterStep { windowMs := 60 * 1000, maxRequests := 20 }

/-- A sequence of middleware invocations for one client at the given
times, threading the shared store. -/
def processTimes (step : RateLimitStore → String → Nat → StepResult)
    (id : String) : List Nat → RateLimitStore → RateLimitStore
  | [], s => s
  | t :: ts, s => processTimes step id ts (step s id t).store

/-- Whether every request in the sequence was passed on to the handler. -/
def processAllowed (step : RateLimitStore → String → Nat → StepResult)
    (id : String) : List Nat → RateLimitStore → Bool
  | [], _ => true
  | t :: ts, s => (step s id t).nextInvoked && processAllowed step id ts (step s id t).store

/-- A field lookup can succeed only on an object value. -/
theorem getField_some_isObjLike {t : Json} {k : String} {v : Json}
    (h : getField t k = some v) : isObjLike t = true := by
  cases t <;> simp [getField, isObjLike] at h ⊢

/-- The source's per-entry filter agrees pointwise with the spec-side
retention predicate: an entry yields a task exactly when it has a
non-empty string title after trimming. -/
theorem validateTask_isSome_eq (t : Json) :
    (validateTask t).isSome = specRetainsEntry t := by
  cases t with
  | obj fields =>
    simp only [validateTask, specRetainsEntry, isObjLike, getField]
    cases h : lookupField fields "title" with
    | none => simp
    | some v =>
      cases v <;> simp
      split <;> simp_all
  | arr xs => simp [validateTask, specRetainsEntry, isObjLike, getField]
  | null => simp [validateTask, specRetainsEntry, isObjLike, getField]
  | bool b => simp [validateTask, specRetainsEntry, isObjLike, getField]
  | num n => simp [validateTask, specRetainsEntry, isObjLike, getField]
  | str s => simp [validateTask, specRetainsEntry, isObjLike, getField]

/-- A retained task is fully determined: trimmed title, filtered
description, exact-match priority. -/
theorem validateTask_some_eq {t : Json} {st : SuggestedTask}
    (h : validateTask t = some st) {s : String}
    (hs : getField t "title" = some (Json.str s)) :
    st = { title := jsTrim s, description := descriptionOf t,
           estimatedPriority := priorityOf t } := by
  unfold validateTask at h
  split at h
  · simp at h
  · split at h
    · next d heq =>
      rw [hs] at heq
      simp only [Option.some.injEq, Json.str.injEq] at heq
      subst heq
      split at h
      · simp at h
      · simp only [Option.some.injEq] at h
        exact h.symm
    · next hno => exact absurd hs (hno s)

/-- A retained task's title is the entry's title, trimmed. -/
theorem validateTask_title {t : Json} {st : SuggestedTask}
    (h : validateTask t = some st) {s : String}
    (hs : getField t "title" = some (Json.str s)) : st.title = jsTrim s := by
  rw [validateTask_some_eq h hs]

/-- A valid payload's task list is the in-order `filterMap` of the
per-entry filter over the provider's `suggestedTasks` array. -/
theorem validateLLMResponse_some {j : Json} {ts : List Json}
    (hobj : isObjLike j = true)
    (harr : getField j "suggestedTasks" = some (Json.arr ts))
    (hne : ts.filterMap validateTask ≠ []) :
    validateLLMResponse j =
      some { suggestedTasks := ts.filterMap validateTask,
             reasoning := reasoningOf j } := by
  unfold validateLLMResponse
  rw [harr]
  cases hl : ts.filterMap validateTask with
  | nil => exact absurd hl hne
  | cons a l => simp [hobj, hl]

/-- A valid payload always carries a non-empty task list. -/
theorem validateLLMResponse_ne_nil {j : Json} {d : ValidatedBreakdown}
    (h : validateLLMResponse j = some d) : d.suggestedTasks ≠ [] := by
  unfold validateLLMResponse at h
  split at h
  · simp at h
  · split at h
    · next ts heq =>
      split at h
      · simp at h
      · next hne =>
        simp only [Option.some.injEq] at h
        rw [← h]
        simpa using hne
    · simp at h

/-- If the payload's `suggestedTasks` is not an array, validation fails. -/
theorem validateLLMResponse_none_of_not_arr {j : Json}
    (h : ∀ ts, getField j "suggestedTasks" ≠ some (Json.arr ts)) :
    validateLLMResponse j = none := by
  unfold validateLLMResponse
  split
  · rfl
  · split
    · next ts heq => exact absurd heq (h ts)
    · rfl

/-- If no entry survives the per-entry filter, validation fails. -/
theorem validateLLMResponse_none_of_empty {j : Json} {ts : List Json}
    (harr : getField j "suggestedTasks" = some (Json.arr ts))
    (hempty : ts.filterMap validateTask = []) :
    validateLLMResponse j = none := by
  unfold validateLLMResponse
  split
  · rfl
  · rw [harr]
    simp [hempty]

/-- A successful breakdown call owes its task list to a valid payload. -/
theorem runBreakdownCall_ok {g : String} {provider : ProviderOutcome}
    {parse : String → Except String Json} {resp : TaskBreakdownResponse}
    (h : runBreakdownCall g provider parse = Except.ok resp) :
    ∃ parsed d, validateLLMResponse parsed = some d ∧
      resp.suggestedTasks = d.suggestedTasks := by
  unfold runBreakdownCall at h
  repeat' split at h
  all_goals try exact Except.noConfusion h
  rename_i provider choices xh c hc hce xs span hspan xp parsed hparse xv d hv
  refine ⟨parsed, d, hv, ?_⟩
  simp only [Except.ok.injEq] at h
  rw [← h]

/-- Setting then getting the same key yields the new entry. -/
theorem storeGet_storeSet_self (s : RateLimitStore) (k : String) (e : RateLimitEntry) :
    storeGet (storeSet s k e) k = some e := by
  induction s with
  | nil => simp [storeGet, storeSet]
  | cons p t ih =>
    by_cases hk : p.1 = k
    · simp [storeGet, storeSet, hk]
    · simpa [storeGet, storeSet, hk] using ih

/-- The store mutation of one middleware invocation, independently of the
admission decision. -/
theorem rateLimiterStep_store (opts : RateLimitOptions) (s : RateLimitStore)
    (id : String) (now : Nat) :
    (rateLimiterStep opts s id now).store =
      storeSet s id (stepEntry opts s id now) := by
  unfold rateLimiterStep
  split <;> rfl

/-- A live (unexpired) entry is incremented in place. -/
theorem stepEntry_live (opts : RateLimitOptions) {s : RateLimitStore}
    {id : String} {now : Nat} {e : RateLimitEntry}
    (hget : storeGet s id = some e) (hnow : now ≤ e.resetTime) :
    stepEntry opts s id now = { count := e.count + 1, resetTime := e.resetTime } := by
  unfold stepEntry
  rw [hget]
  simp [Nat.not_lt.mpr hnow]

/-- A missing entry is created with count 1 and a fresh window. -/
theorem stepEntry_fresh (opts : RateLimitOptions) {s : RateLimitStore}
    {id : String} {now : Nat} (hget : storeGet s id = none) :
    stepEntry opts s id now = { count := 1, resetTime := now + opts.windowMs } := by
  unfold stepEntry
  rw [hget]

/-- Processing further requests within a live window adds their number to
the entry's count and leaves the reset time unchanged. -/
theorem processTimes_count (opts : RateLimitOptions) (id : String)
    (ts : List Nat) :
    ∀ (s : RateLimitStore) (k R : Nat),
      storeGet s id = some { count := k, resetTime := R } →
      (∀ t ∈ ts, t ≤ R) →
      storeGet (processTimes (rateLimiterStep opts) id ts s) id =
        some { count := k + ts.length, resetTime := R } := by
  induction ts with
  | nil => intro s k R hget _; simpa [processTimes] using hget
  | cons t ts ih =>
    intro s k R hget hts
    have hstep : (rateLimiterStep opts s id t).store =
        storeSet s id { count := k + 1, resetTime := R } := by
      rw [rateLimiterStep_store, stepEntry_live opts hget (hts t (by simp))]
    have hget' : storeGet (rateLimiterStep opts s id t).store id =
        some { count := k + 1, resetTime := R } := by
      rw [hstep]; exact storeGet_storeSet_self ..
    have := ih (rateLimiterStep opts s id t).store (k + 1) R hget'
      (fun u hu => hts u (by simp [hu]))
    simpa [processTimes, Nat.add_assoc, Nat.add_comm 1 ts.length] using this

/-- While the ceiling is not yet reached, every request in a live window
is passed on to the handler. -/
theorem processAllowed_of_le (opts : RateLimitOptions) (id : String)
    (ts : List Nat) :
    ∀ (s : RateLimitStore) (k R : Nat),
      storeGet s id = some { count := k, resetTime := R } →
      (∀ t ∈ ts, t ≤ R) →
      k + ts.length ≤ opts.maxRequests →
      processAllowed (rateLimiterStep opts) id ts s = true := by
  induction ts with
  | nil => intro s k R _ _ _; simp [processAllowed]
  | cons t ts ih =>
    intro s k R hget hts hcap
    have hentry := stepEntry_live opts hget (hts t (by simp))
    have hnext : (rateLimiterStep opts s id t).nextInvoked = true := by
      unfold rateLimiterStep
      rw [hentry]
      have : ¬ k + 1 > opts.maxRequests := by
        simp at hcap ⊢
        omega
      simp [this]
    have hget' : storeGet (rateLimiterStep opts s id t).store id =
        some { count := k + 1, resetTime := R } := by
      rw [rateLimiterStep_store, hentry]
      exact storeGet_storeSet_self ..
    have htail := ih (rateLimiterStep opts s id t).store (k + 1) R hget'
      (fun u hu => hts u (by simp [hu])) (by simp at hcap ⊢; omega)
    simp [processAllowed, hnext, htail]

/-- Once the entry's count has reached the ceiling, a request in the live
window is rejected with 429 and the ceiling of the remaining window time
in seconds, and the handler is not invoked. -/
theorem rateLimiterStep_rejected (opts : RateLimitOptions)
    {s : RateLimitStore} {id : String} {now : Nat} {e : RateLimitEntry}
    (hget : storeGet s id = some e) (hnow : now ≤ e.resetTime)
    (hcap : opts.maxRequests ≤ e.count) :
    (rateLimiterStep opts s id now).decision =
      LimitDecision.rejected 429 ((e.resetTime - now + 999) / 1000) ∧
    (rateLimiterStep opts s id now).nextInvoked = false := by
  have hentry := stepEntry_live opts hget hnow
  unfold rateLimiterStep
  rw [hentry]
  have : e.count + 1 > opts.maxRequests := by omega
  simp [this]

/-- A sample todo (taken from the repository's test fixtures). -/
def sampleTodo : Todo :=
  { id := "1", title := "Implement authentication",
    description := some "Add JWT-based auth", completed := false,
    createdAt := "2025-11-29T00:00:00Z", updatedAt := "2025-11-29T00:00:00Z" }

/-- A goal accepted by `validateGoal`. -/
def goodGoal : String := "Plan a weekend camping trip"

/-- A provider `suggestedTasks` array mixing valid and invalid entries. -/
def mixedTasks : List Json :=
  [Json.obj [("title", Json.str "  Buy tent  ")],
   Json.str "junk",
   Json.obj [("title", Json.str "   ")],
   Json.obj [("title", Json.num 7)],
   Json.null,
   Json.obj [("title", Json.str "Pack food"), ("description", Json.str " staples ")]]

/-- A provider payload carrying `mixedTasks`. -/
def mixedPayload : Json := Json.obj [("suggestedTasks", Json.arr mixedTasks)]

/-- C1: for a parsed payload whose `suggestedTasks` array mixes valid and
invalid entries, `validateLLMResponse` succeeds and retains exactly the
entries with a non-empty trimmed string title (the pointwise agreement of
the per-entry filter with the spec-side predicate `specRetainsEntry`), in
their original relative order (the task list is the in-order `filterMap`),
with titles trimmed; malformed entries are dropped, never repaired. -/
theorem c1_retains_exactly_valid_titles_in_order (j : Json) (ts : List Json)
    (hobj : isObjLike j = true)
    (harr : getField j "suggestedTasks" = some (Json.arr ts))
    (hmix : ts.filterMap validateTask ≠ []) :
    ∃ d, validateLLMResponse j = some d ∧
      d.suggestedTasks = ts.filterMap validateTask ∧
      (∀ t, (validateTask t).isSome = specRetainsEntry t) ∧
      (∀ t st, validateTask t = some st →
        ∀ s, getField t "title" = some (Json.str s) → st.title = jsTrim s) := by
  refine ⟨_, validateLLMResponse_some hobj harr hmix, rfl, validateTask_isSome_eq, ?_⟩
  intro t st h s hs
  exact validateTask_title h hs

/-- Witness for C1 at the concrete mixed payload: the hypotheses hold and
the validator keeps exactly the two titled entries, trimmed, in order. -/
theorem c1_witness :
    (isObjLike mixedPayload = true ∧
      getField mixedPayload "suggestedTasks" = some (Json.arr mixedTasks) ∧
      mixedTasks.filterMap validateTask ≠ []) ∧
    (∃ d, validateLLMResponse mixedPayload = some d ∧
      d.suggestedTasks = mixedTasks.filterMap validateTask ∧
      (∀ t, (validateTask t).isSome = specRetainsEntry t) ∧
      (∀ t st, validateTask t = some st →
        ∀ s, getField t "title" = some (Json.str s) → st.title = jsTrim s)) ∧
    mixedTasks.filterMap validateTask =
      [{ title := "Buy tent" },
       { title := "Pack food", description := some "staples" }] := by
  refine ⟨⟨rfl, rfl, by decide⟩, ?_, by decide⟩
  exact c1_retains_exactly_valid_titles_in_order mixedPayload mixedTasks rfl rfl (by decide)

/-- C2: a successful breakdown never carries an empty task list; a payload
that validates to nothing makes the whole call fail with the dedicated
error; and validation rejects payloads whose `suggestedTasks` is missing,
not an array, or has no valid entry. -/
theorem c2_empty_or_invalid_payload_fails (env : BreakdownEnv)
    (req : TaskBreakdownRequest) (provider : ProviderOutcome)
    (parse : String → Except String Json) :
    (∀ resp, (generateTaskBreakdown env req provider parse).result = Except.ok resp →
      resp.suggestedTasks ≠ []) ∧
    (∀ key c span j, env.apiKey = some key → validateGoal req.goal = none →
      provider = ProviderOutcome.success [some c] →
      extractJsonSpan c = some span → parse span = Except.ok j →
      validateLLMResponse j = none →
      (generateTaskBreakdown env req provider parse).result =
        Except.error "AI response did not contain valid suggested tasks") ∧
    (∀ j ts, getField j "suggestedTasks" = some (Json.arr ts) →
      ts.filterMap validateTask = [] → validateLLMResponse j = none) ∧
    (∀ j, (∀ ts, getField j "suggestedTasks" ≠ some (Json.arr ts)) →
      validateLLMResponse j = none) := by
  refine ⟨?_, ?_, ?_, ?_⟩
  · intro resp h
    unfold generateTaskBreakdown at h
    split at h
    · simp at h
    · split at h
      · simp at h
      · simp only at h
        obtain ⟨parsed, d, hv, heq⟩ := runBreakdownCall_ok h
        rw [heq]
        exact validateLLMResponse_ne_nil hv
  · intro key c span j hkey hval hprov hx hp hv
    subst hprov
    have hc : c ≠ "" := by
      intro hc
      subst hc
      rw [show extractJsonSpan "" = none from rfl] at hx
      cases hx
    unfold generateTaskBreakdown
    rw [hkey]
    simp only
    rw [hval]
    simp only
    unfold runBreakdownCall
    simp only [List.head?]
    rw [if_neg hc, hx]
    simp only [hp, hv]
    rfl
  · intro j ts harr hempty
    exact validateLLMResponse_none_of_empty harr hempty
  · intro j h
    exact validateLLMResponse_none_of_not_arr h

/-- A provider reply whose JSON span parses to a payload with an empty
`suggestedTasks` array. -/
def emptyTasksContent : String := "\x7b\"suggestedTasks\": []\x7d"

/-- The parsed payload of `emptyTasksContent`. -/
def emptyTasksPayload : Json := Json.obj [("suggestedTasks", Json.arr [])]

/-- Witness for C2: the empty-array payload makes the whole call fail, and
the validator rejects it as well as a non-object payload. -/
theorem c2_witness :
    (generateTaskBreakdown { apiKey := some "test-api-key" } { goal := goodGoal }
        (ProviderOutcome.success [some emptyTasksContent])
        (fun _ => Except.ok emptyTasksPayload)).result =
      Except.error "AI response did not contain valid suggested tasks" ∧
    validateLLMResponse emptyTasksPayload = none ∧
    validateLLMResponse (Json.num 3) = none := by
  refine ⟨?_, ?_, ?_⟩
  · exact (c2_empty_or_invalid_payload_fails _ _ _ _).2.1 "test-api-key"
      emptyTasksContent emptyTasksContent emptyTasksPayload rfl rfl rfl rfl rfl rfl
  · exact (c2_empty_or_invalid_payload_fails { apiKey := none } { goal := goodGoal }
      ProviderOutcome.timeout (fun _ => Except.error "x")).2.2.1
      emptyTasksPayload [] rfl rfl
  · exact (c2_empty_or_invalid_payload_fails { apiKey := none } { goal := goodGoal }
      ProviderOutcome.timeout (fun _ => Except.error "x")).2.2.2
      (Json.num 3) (fun ts h => Option.noConfusion h)

/-- C3: with the API key configured, an empty todo collection makes
`analyzeTodosWithAI` return the canned empty-state result — whose summary
is exactly the canned sentence — without reaching the network, whatever
the provider would have answered. -/
theorem c3_empty_todos_short_circuit (key : String) (provider : ProviderOutcome)
    (parse : String → Except String Json) :
    analyzeTodosWithAI { apiKey := some key } [] provider parse =
      { result := Except.ok cannedEmptyAnalysis, networkCalled := false } ∧
    cannedEmptyAnalysis.summary =
      Json.str "You have no todos yet. Start by adding your first task!" :=
  ⟨rfl, rfl⟩

/-- A provider reply whose summary is the number 42 (truthy, not a string). -/
def numericSummaryContent : String := "\x7b\"summary\": 42, \"insights\": [\"a\"]\x7d"

/-- The parsed payload of `numericSummaryContent`. -/
def numericSummaryPayload : Json :=
  Json.obj [("summary", Json.num 42), ("insights", Json.arr [Json.str "a"])]

/-- C4 (code bug): the claimed invariant "summary is always a non-empty
string" fails — `parsedResponse.summary || "Analysis completed"` checks
truthiness, not type, so a provider summary of `42` is passed through as a
number, contradicting the declared `AIAnalysisResponse.summary: string`
type. `insights` is still forced to an array. -/
theorem c4_numeric_summary_passes_through :
    (analyzeTodosWithAI { apiKey := some "test-api-key" } [sampleTodo]
        (ProviderOutcome.success [some numericSummaryContent])
        (fun _ => Except.ok numericSummaryPayload)).result =
      Except.ok { summary := Json.num 42, insights := [Json.str "a"],
                  prioritySuggestions := none } ∧
    (∀ s : String, Json.num 42 ≠ Json.str s) :=
  ⟨rfl, fun _ h => Json.noConfusion h⟩

/-- C5: with the API key configured, a goal shorter than 5 characters
after trimming (including the empty goal) or longer than 500 characters
fails `generateTaskBreakdown` with the corresponding distinct validation
message, and the network call is never reached. -/
theorem c5_invalid_goal_fails_before_network (key goal : String)
    (ctx : Option String) (mt : Option Nat) (ceil : Nat)
    (provider : ProviderOutcome) (parse : String → Except String Json)
    (h : (jsTrim goal).length < 5 ∨ (jsTrim goal).length > 500) :
    (generateTaskBreakdown { apiKey := some key, maxTasksCeil := ceil }
        { goal := goal, context := ctx, maxTasks := mt } provider parse).networkCalled = false ∧
    (generateTaskBreakdown { apiKey := some key, maxTasksCeil := ceil }
        { goal := goal, context := ctx, maxTasks := mt } provider parse).result =
      Except.error
        (if jsTrim goal = "" then "Goal cannot be empty"
         else if (jsTrim goal).length < 5 then
           "Please provide a more specific goal (at least 5 characters)"
         else "Goal is too long (maximum 500 characters)") ∧
    ("Goal cannot be empty" ≠ "Please provide a more specific goal (at least 5 characters)" ∧
     "Goal cannot be empty" ≠ "Goal is too long (maximum 500 characters)" ∧
     "Please provide a more specific goal (at least 5 characters)" ≠
       "Goal is too long (maximum 500 characters)") := by
  have hv : validateGoal goal =
      some (if jsTrim goal = "" then "Goal cannot be empty"
        else if (jsTrim goal).length < 5 then
          "Please provide a more specific goal (at least 5 characters)"
        else "Goal is too long (maximum 500 characters)") := by
    unfold validateGoal
    split_ifs with h1 h2 h3
    · rfl
    · rfl
    · rfl
    · exact absurd h (by simp [h2, h3])
  refine ⟨?_, ?_, by decide, by decide, by decide⟩
  · unfold generateTaskBreakdown
    rw [hv]
  · unfold generateTaskBreakdown
    rw [hv]

/-- Witness for C5 at the repository's own end-to-end scenario goal
`"Go"`: rejected with the too-short message, no network call. -/
theorem c5_witness :
    (generateTaskBreakdown { apiKey := some "test-api-key", maxTasksCeil := 8 }
        { goal := "Go" } ProviderOutcome.timeout (fun _ => Except.error "x")).networkCalled = false ∧
    (generateTaskBreakdown { apiKey := some "test-api-key", maxTasksCeil := 8 }
        { goal := "Go" } ProviderOutcome.timeout (fun _ => Except.error "x")).result =
      Except.error "Please provide a more specific goal (at least 5 characters)" := by
  have h := c5_invalid_goal_fails_before_network "test-api-key" "Go" none none 8
    ProviderOutcome.timeout (fun _ => Except.error "x") (Or.inl (by decide))
  refine ⟨h.1, ?_⟩
  rw [h.2.1]
  rfl

/-- C6 counterexample: the two endpoint groups do not keep separate
windows. From a fresh store, ten analysis requests from one identity are
all admitted (the analysis ceiling is 20), yet the very first breakdown
request of the same identity in the same window is then rejected — under
the claim it would have to be admitted, the breakdown group having seen
none of that identity's quota. Quota consumed on one endpoint therefore
counts against the other. -/
theorem c6_counterexample_shared_quota :
    processAllowed aiAnalysisRateLimiter "1.2.3.4" (List.replicate 10 0) [] = true ∧
    (taskBreakdownRateLimiter
        (processTimes aiAnalysisRateLimiter "1.2.3.4" (List.replicate 10 0) [])
        "1.2.3.4" 0).nextInvoked = false :=
  ⟨by decide, by decide⟩

/-- C6 amended: both endpoint groups share the single process-wide
`rateLimitStore` keyed by caller identity alone; a request to either group
performs the identical mutation of that one shared entry (both windows
being 60 s), so quota consumed on one endpoint counts against the other. -/
theorem c6_amended_single_shared_entry (s : RateLimitStore) (id : String) (now : Nat) :
    (aiAnalysisRateLimiter s id now).store = (taskBreakdownRateLimiter s id now).store := by
  unfold aiAnalysisRateLimiter taskBreakdownRateLimiter
  rw [rateLimiterStep_store, rateLimiterStep_store]
  unfold stepEntry
  rfl

/-- C7: with ceiling N and the 60 s window, once N requests of one
identity have been admitted within the current window (all of the first N
are indeed admitted), every further request of that identity in the same
window — no matter how many rejected requests came between — is rejected
with status 429 and a `Retry-After` of at most 60 seconds, and the
downstream handler is not invoked. -/
theorem c7_over_ceiling_rejected_within_window (N t0 now : Nat)
    (rest more : List Nat) (id : String)
    (hN : 1 ≤ N) (hlen : rest.length + 1 = N)
    (hrest : ∀ t ∈ rest, t ≤ t0 + 60 * 1000)
    (hmore : ∀ t ∈ more, t ≤ t0 + 60 * 1000)
    (hn1 : t0 ≤ now) (hn2 : now ≤ t0 + 60 * 1000) :
    processAllowed (rateLimiterStep { windowMs := 60 * 1000, maxRequests := N })
      id (t0 :: rest) [] = true ∧
    (rateLimiterStep { windowMs := 60 * 1000, maxRequests := N }
        (processTimes (rateLimiterStep { windowMs := 60 * 1000, maxRequests := N })
          id (t0 :: (rest ++ more)) []) id now).nextInvoked = false ∧
    ∃ r, (rateLimiterStep { windowMs := 60 * 1000, maxRequests := N }
        (processTimes (rateLimiterStep { windowMs := 60 * 1000, maxRequests := N })
          id (t0 :: (rest ++ more)) []) id now).decision =
      LimitDecision.rejected 429 r ∧ r ≤ 60 := by
  have hget0 : storeGet [] id = none := rfl
  have hentry0 :
      stepEntry { windowMs := 60 * 1000, maxRequests := N } [] id t0 =
        { count := 1, resetTime := t0 + 60 * 1000 } := stepEntry_fresh _ hget0
  have hget1 :
      storeGet (rateLimiterStep { windowMs := 60 * 1000, maxRequests := N } [] id t0).store id =
        some { count := 1, resetTime := t0 + 60 * 1000 } := by
    rw [rateLimiterStep_store, hentry0]
    exact storeGet_storeSet_self ..
  refine ⟨?_, ?_⟩
  · have hnext0 :
        (rateLimiterStep { windowMs := 60 * 1000, maxRequests := N } [] id t0).nextInvoked = true := by
      unfold rateLimiterStep
      rw [hentry0]
      have hgt : ¬ (1 > N) := by omega
      simp [hgt]
    have htail := processAllowed_of_le { windowMs := 60 * 1000, maxRequests := N } id rest
      _ 1 (t0 + 60 * 1000) hget1 hrest (by show 1 + rest.length ≤ N; omega)
    simp [processAllowed, hnext0, htail]
  · have hcount :
        storeGet (processTimes (rateLimiterStep { windowMs := 60 * 1000, maxRequests := N })
            id (t0 :: (rest ++ more)) []) id =
          some { count := 1 + (rest ++ more).length, resetTime := t0 + 60 * 1000 } := by
      have hstep : processTimes (rateLimiterStep { windowMs := 60 * 1000, maxRequests := N })
          id (t0 :: (rest ++ more)) [] =
        processTimes (rateLimiterStep { windowMs := 60 * 1000, maxRequests := N })
          id (rest ++ more)
          (rateLimiterStep { windowMs := 60 * 1000, maxRequests := N } [] id t0).store := rfl
      rw [hstep]
      refine processTimes_count _ id (rest ++ more) _ 1 (t0 + 60 * 1000) hget1 ?_
      intro u hu
      rcases List.mem_append.mp hu with h | h
      · exact hrest u h
      · exact hmore u h
    have hcap : N ≤ 1 + (rest ++ more).length := by
      rw [List.length_append]
      omega
    have hrej := rateLimiterStep_rejected { windowMs := 60 * 1000, maxRequests := N } hcount hn2 hcap
    refine ⟨hrej.2, ⟨(t0 + 60 * 1000 - now + 999) / 1000, hrej.1, ?_⟩⟩
    have hle : t0 + 60 * 1000 - now + 999 ≤ 60999 := by omega
    calc (t0 + 60 * 1000 - now + 999) / 1000 ≤ 60999 / 1000 :=
          Nat.div_le_div_right hle
      _ = 60 := by norm_num

/-- Witness for C7: ceiling 2, requests at 0 and 1, a further request at
time 5 in the same window is rejected with 429 and `Retry-After` ≤ 60. -/
theorem c7_witness :
    processAllowed (rateLimiterStep { windowMs := 60 * 1000, maxRequests := 2 })
      "1.2.3.4" (0 :: [1]) [] = true ∧
    (rateLimiterStep { windowMs := 60 * 1000, maxRequests := 2 }
        (processTimes (rateLimiterStep { windowMs := 60 * 1000, maxRequests := 2 })
          "1.2.3.4" (0 :: ([1] ++ [])) []) "1.2.3.4" 5).nextInvoked = false ∧
    ∃ r, (rateLimiterStep { windowMs := 60 * 1000, maxRequests := 2 }
        (processTimes (rateLimiterStep { windowMs := 60 * 1000, maxRequests := 2 })
          "1.2.3.4" (0 :: ([1] ++ [])) []) "1.2.3.4" 5).decision =
      LimitDecision.rejected 429 r ∧ r ≤ 60 := by
  have h := c7_over_ceiling_rejected_within_window 2 0 5 [1] [] "1.2.3.4"
    (by omega) (by simp) (by intro t ht; simp at ht; omega) (by simp)
    (by omega) (by omega)
  exact ⟨h.1, h.2.1, h.2.2⟩

/-- A retained task carries exactly the filtered priority and description
clauses of the loop body. -/
theorem validateTask_fields {t : Json} {st : SuggestedTask}
    (h : validateTask t = some st) :
    st.estimatedPriority = priorityOf t ∧ st.description = descriptionOf t := by
  unfold validateTask at h
  split at h
  · simp at h
  · split at h
    · split at h
      · simp at h
      · simp only [Option.some.injEq] at h
        rw [← h]
        exact ⟨rfl, rfl⟩
    · simp at h

/-- The priority clause keeps exactly the three literal strings. -/
theorem priorityOf_characterization (t : Json) :
    (priorityOf t = some Priority.low ↔
      getField t "estimatedPriority" = some (Json.str "low")) ∧
    (priorityOf t = some Priority.medium ↔
      getField t "estimatedPriority" = some (Json.str "medium")) ∧
    (priorityOf t = some Priority.high ↔
      getField t "estimatedPriority" = some (Json.str "high")) ∧
    (priorityOf t = none ↔
      ∀ p, getField t "estimatedPriority" = some (Json.str p) →
        p ≠ "low" ∧ p ≠ "medium" ∧ p ≠ "high") := by
  unfold priorityOf
  cases hg : getField t "estimatedPriority" with
  | none => simp
  | some v =>
    cases v <;> simp
    next p => split_ifs with h1 h2 h3 <;> simp_all

/-- C8: in every task retained by the breakdown response validator, the
`estimatedPriority` field is present if and only if the provider's value
for it is exactly the string `low`, `medium` or `high` (case-sensitive,
via the per-value characterization and the none case); any other value is
stripped, never defaulted. -/
theorem c8_priority_kept_iff_exact (t : Json) (st : SuggestedTask)
    (h : validateTask t = some st) :
    (st.estimatedPriority = some Priority.low ↔
      getField t "estimatedPriority" = some (Json.str "low")) ∧
    (st.estimatedPriority = some Priority.medium ↔
      getField t "estimatedPriority" = some (Json.str "medium")) ∧
    (st.estimatedPriority = some Priority.high ↔
      getField t "estimatedPriority" = some (Json.str "high")) ∧
    (st.estimatedPriority = none ↔
      ∀ p, getField t "estimatedPriority" = some (Json.str p) →
        p ≠ "low" ∧ p ≠ "medium" ∧ p ≠ "high") := by
  rw [(validateTask_fields h).1]
  exact priorityOf_characterization t

/-- An entry whose priority differs from the three literals only by case. -/
def casedPriorityEntry : Json :=
  Json.obj [("title", Json.str "A"), ("estimatedPriority", Json.str "LOW")]

/-- Witness for C8 at an entry with priority `"LOW"`: the task is retained
with no priority (case-sensitivity: `"LOW"` is stripped, not coerced). -/
theorem c8_witness :
    validateTask casedPriorityEntry = some { title := "A" } ∧
    (({ title := "A" } : SuggestedTask).estimatedPriority = none ↔
      ∀ p, getField casedPriorityEntry "estimatedPriority" = some (Json.str p) →
        p ≠ "low" ∧ p ≠ "medium" ∧ p ≠ "high") :=
  ⟨rfl, (c8_priority_kept_iff_exact casedPriorityEntry { title := "A" } rfl).2.2.2⟩

/-- The non-JSON prose completion of the spec's end-to-end scenario 4. -/
def proseReply : String := "I cannot help with that."

/-- C9 counterexample: for the analysis endpoint, a non-JSON prose
completion does not reach the caller as an error mentioning the
unexpected format — the service's catch block replaces the format error
with its generic failure message (as the repository's own unit test
expects), and the caller sees the generic 500 of the top-level handler.
This falsifies the claim's "every parsed provider payload … the caller
receives HTTP 500 with an error message mentioning the unexpected
format". -/
theorem c9_counterexample_analysis_no_format_mention :
    (analyzeTodosWithAI { apiKey := some "test-api-key" } [sampleTodo]
        (ProviderOutcome.success [some proseReply])
        (fun _ => Except.error "unused")).result =
      Except.error "Failed to analyze todos with AI. Please try again later." ∧
    containsStr "Failed to analyze todos with AI. Please try again later." "format" = false ∧
    analysisHttp { apiKey := some "test-api-key" } [sampleTodo]
        (ProviderOutcome.success [some proseReply]) (fun _ => Except.error "unused") =
      Except.error (500, "Internal server error") ∧
    containsStr "Internal server error" "format" = false :=
  ⟨rfl, rfl, rfl, rfl⟩

/-- C9 amended: for a non-empty completion containing no JSON span, the
pipeline fails on both endpoints with HTTP 500, but only the breakdown
endpoint's error mentions the unexpected format; the analysis endpoint's
catch block swallows the format error into its generic failure message,
which reaches the caller through the generic handler without mentioning
the format. -/
theorem c9_amended_format_mention_only_on_breakdown (c key : String)
    (parseB parseA : String → Except String Json)
    (h1 : extractJsonSpan c = none) (h2 : c ≠ "") :
    breakdownHttp { apiKey := some key, maxTasksCeil := 8 } { goal := goodGoal }
        (ProviderOutcome.success [some c]) parseB =
      Except.error (500, "AI response was not in expected format. Please try again.") ∧
    analysisHttp { apiKey := some key } [sampleTodo]
        (ProviderOutcome.success [some c]) parseA =
      Except.error (500, "Internal server error") := by
  constructor
  · have hrun : runBreakdownCall (sanitizeInput goodGoal)
        (ProviderOutcome.success [some c]) parseB =
        Except.error "AI response was not in expected JSON format" := by
      unfold runBreakdownCall
      simp only [List.head?]
      rw [if_neg h2, h1]
      rfl
    unfold breakdownHttp generateTaskBreakdown
    rw [show validateGoal goodGoal = none from rfl]
    simp only
    rw [hrun]
    rfl
  · have hrun : runAnalysisCall (ProviderOutcome.success [some c]) parseA =
        Except.error "Failed to analyze todos with AI. Please try again later." := by
      unfold runAnalysisCall
      simp only [List.head?]
      rw [if_neg h2, h1]
      rfl
    unfold analysisHttp analyzeTodosWithAI
    simp only
    rw [show ([sampleTodo].isEmpty) = false from rfl]
    simp only [Bool.false_eq_true, if_false]
    rw [hrun]
    rfl

/-- Witness for C9 (amended) at the concrete prose completion. -/
theorem c9_witness :
    breakdownHttp { apiKey := some "test-api-key", maxTasksCeil := 8 } { goal := goodGoal }
        (ProviderOutcome.success [some proseReply]) (fun _ => Except.error "unused") =
      Except.error (500, "AI response was not in expected format. Please try again.") ∧
    analysisHttp { apiKey := some "test-api-key" } [sampleTodo]
        (ProviderOutcome.success [some proseReply]) (fun _ => Except.error "unused") =
      Except.error (500, "Internal server error") :=
  c9_amended_format_mention_only_on_breakdown proseReply "test-api-key"
    (fun _ => Except.error "unused") (fun _ => Except.error "unused") rfl (by decide)

/-- C10: `generateTaskBreakdown` imposes no upper bound on the number of
returned tasks. The result is identical for any two `maxTasks` values
(`maxTasks` reaches only the prompt text), and on a payload with k valid
entries the returned `suggestedTasks` has length exactly k — the length of
the validator's filtered list — regardless of `maxTasks`. -/
theorem c10_no_output_bound_from_maxTasks (env : BreakdownEnv) (goal : String)
    (ctx : Option String) (a b : Option Nat) (provider : ProviderOutcome)
    (parse : String → Except String Json) :
    ((generateTaskBreakdown env { goal := goal, context := ctx, maxTasks := a }
        provider parse).result =
      (generateTaskBreakdown env { goal := goal, context := ctx, maxTasks := b }
        provider parse).result) ∧
    (∀ key c span j ts, env.apiKey = some key → validateGoal goal = none →
      provider = ProviderOutcome.success [some c] →
      extractJsonSpan c = some span → parse span = Except.ok j →
      isObjLike j = true →
      getField j "suggestedTasks" = some (Json.arr ts) →
      ts.filterMap validateTask ≠ [] →
      ∃ resp, (generateTaskBreakdown env { goal := goal, context := ctx, maxTasks := a }
          provider parse).result = Except.ok resp ∧
        resp.suggestedTasks.length = (ts.filterMap validateTask).length) := by
  constructor
  · cases hk : env.apiKey with
    | none => simp [generateTaskBreakdown, hk]
    | some key =>
      cases hv : validateGoal goal with
      | none => simp [generateTaskBreakdown, hk, hv]
      | some err => simp [generateTaskBreakdown, hk, hv]
  · intro key c span j ts hkey hval hprov hx hp hobj harr hne
    subst hprov
    have hc : c ≠ "" := by
      intro hc
      subst hc
      rw [show extractJsonSpan "" = none from rfl] at hx
      cases hx
    have hllm := validateLLMResponse_some hobj harr hne
    refine ⟨{ goal := sanitizeInput goal,
              suggestedTasks := ts.filterMap validateTask,
              reasoning := finalReasoning (reasoningOf j) }, ?_, rfl⟩
    unfold generateTaskBreakdown
    rw [hkey]
    simp only
    rw [hval]
    simp only
    unfold runBreakdownCall
    simp only [List.head?]
    rw [if_neg hc, hx]
    simp only [hp, hllm]

/-- Nine valid provider entries — one more than the default ceiling. -/
def nineTasks : List Json :=
  [Json.obj [("title", Json.str "Task one")],
   Json.obj [("title", Json.str "Task two")],
   Json.obj [("title", Json.str "Task three")],
   Json.obj [("title", Json.str "Task four")],
   Json.obj [("title", Json.str "Task five")],
   Json.obj [("title", Json.str "Task six")],
   Json.obj [("title", Json.str "Task seven")],
   Json.obj [("title", Json.str "Task eight")],
   Json.obj [("title", Json.str "Task nine")]]

/-- The payload carrying `nineTasks`. -/
def nineTasksPayload : Json := Json.obj [("suggestedTasks", Json.arr nineTasks)]

/-- A completion whose span stands for the nine-task payload. -/
def nineTasksContent : String := "\x7bnine tasks\x7d"

/-- Witness for C10: with `maxTasks := some 8` (and ceiling 8), a payload
with 9 valid entries comes back with exactly 9 tasks. -/
theorem c10_witness :
    ∃ resp, (generateTaskBreakdown { apiKey := some "test-api-key", maxTasksCeil := 8 }
        { goal := goodGoal, context := none, maxTasks := some 8 }
        (ProviderOutcome.success [some nineTasksContent])
        (fun _ => Except.ok nineTasksPayload)).result = Except.ok resp ∧
      resp.suggestedTasks.length = 9 := by
  obtain ⟨resp, hr, hl⟩ :=
    (c10_no_output_bound_from_maxTasks { apiKey := some "test-api-key", maxTasksCeil := 8 }
      goodGoal none (some 8) none (ProviderOutcome.success [some nineTasksContent])
      (fun _ => Except.ok nineTasksPayload)).2
      "test-api-key" nineTasksContent nineTasksContent nineTasksPayload nineTasks
      rfl rfl rfl rfl rfl rfl rfl (by decide)
  exact ⟨resp, hr, by rw [hl]; rfl⟩
